import Mathlib

/-!
Shallow embedding of the utype schema-resolution and call-adaptation core
(src/utype/field.py, src/utype/parser/func.py, src/utype/parser/cls.py),
with theorems checking the natural-language specification against it.

Conventions of the embedding:
* Python runtime values are modelled by `Utype.Val`; mappings are association
  lists.  Type rules are opaque to this core (the spec delegates coercion to an
  external Transformer), so a type annotation is modelled by `Utype.Ty` exposing
  exactly the introspection the core uses (combinator kind, member schemas,
  literal constants), and a transformer is any function
  `Val → Ty → Option Val`, `none` meaning the coercion raised.
* Python truthiness of an optional string (None or empty) is modelled by the
  empty string; optional values use `Option`.
* The per-call error context (options.py is not part of the sources) is
  modelled from the spec: it buffers fatal errors and warnings; escalation to
  fatal appends to the error buffer, and `raise_error` fails when the buffer is
  not empty.
-/

namespace Utype

/-- A Python runtime value, as far as this core inspects values. -/
inductive Val where
  | vnone
  | int (n : Int)
  | str (s : String)
  | bool (b : Bool)
  | map (entries : List (String × Val))
  | list (items : List Val)
deriving Repr

/-- Equality test used for discriminator-map keys.  The map keys are validated
to be int / str / bool literal constants, so only primitive comparisons occur;
comparison of a composite with a primitive key is False, as in Python. -/
def Val.primEq : Val → Val → Bool
  | .int a, .int b => a == b
  | .str a, .str b => a == b
  | .bool a, .bool b => a == b
  | .vnone, .vnone => true
  | _, _ => false

/-- Python truthiness restricted to None detection (`result is None`). -/
def Val.isNoneV : Val → Bool
  | .vnone => true
  | _ => false

/-- Lookup in an association list with string keys (Python `dict.get`). -/
def lookupStr {α : Type} (l : List (String × α)) (k : String) : Option α :=
  (l.find? (fun p => p.1 == k)).map (fun p => p.2)

/-- Lookup with `Val` keys, used by the discriminator map. -/
def lookupVal {α : Type} (l : List (Val × α)) (k : Val) : Option α :=
  (l.find? (fun p => p.1.primEq k)).map (fun p => p.2)

/-- Lookup in an association list with natural-number keys (positional field
maps). -/
def lookupNat {α : Type} (l : List (Nat × α)) (k : Nat) : Option α :=
  (l.find? (fun p => p.1 == k)).map (fun p => p.2)

/-- Python substring containment `needle in hay` for strings (computed on the
character lists). -/
def strContains (hay needle : String) : Bool :=
  (List.range (hay.data.length + 1)).any
    (fun i => needle.data.isPrefixOf (hay.data.drop i))

/-- A type annotation, as introspected by this core: a common (non-logical)
type, a logical combination (with its combinator when it resolves to a combined
origin), or a schema class exposing, per field name, the literal constant of
that field when one is declared (`none` = the field has no literal constant). -/
inductive Ty where
  | base (name : String)
  | logical (comb : Option String) (args : List Ty)
  | schemaCls (name : String) (fields : List (String × Option Val))
deriving Repr

/-- Error policy for invalid values (`Options.EXCLUDE / PRESERVE / THROW`). -/
inductive Policy where
  | exclude
  | preserve
  | throw
deriving DecidableEq, Repr

/-- A bool-or-mode-string option (`required: Union[bool, str]`). -/
inductive BS where
  | b (b : Bool)
  | s (s : String)

/-- A bool, mode-string, or callable option (`no_input` / `no_output`). -/
inductive BSF where
  | b (b : Bool)
  | s (s : String)
  | fn (f : Val → Bool)

/-- A default: a plain value or a zero-argument factory.  Deep copying of a
mutable non-factory default has no observable effect in a pure embedding. -/
inductive DefaultVal where
  | val (v : Val)
  | fac (f : Unit → Val)

def evalDefault : DefaultVal → Val
  | .val v => v
  | .fac f => f ()

/-- Output of an alias generator: a single name or several. -/
inductive GenOutNames where
  | one (s : String)
  | more (l : List String)

/-- One entry of `alias_from`: a string, a list of strings, or a callable. -/
inductive AFEntry where
  | str (s : String)
  | strs (l : List String)
  | fn (f : String → GenOutNames)

/-- The stored `alias_from` attribute: absent, a single (non-list) entry, or a
list of entries (`multi` in the source detects the list case). -/
inductive AF where
  | noneA
  | one (e : AFEntry)
  | many (l : List AFEntry)

/-- Python truthiness of the stored `alias_from` (None, empty string and empty
list are falsy). -/
def AF.truthy : AF → Bool
  | .noneA => false
  | .one (.str s) => s != ""
  | .one (.strs l) => !l.isEmpty
  | .one (.fn _) => true
  | .many l => !l.isEmpty

/-- The `Field` data model (src/utype/field.py).  Attributes that carry no
behaviour in this core (title, description, example, message, secret) and the
constraint set (opaque to this core, forwarded to the external rule engine) are
omitted.  `mode = ""` models an unset mode (None and the empty string are both
falsy in the source). -/
structure Field where
  alias_ : Option String := none
  alias_generator : Option (String → String) := none
  alias_from : AF := .noneA
  case_insensitive : Bool := false
  deprecated : Bool := false
  deprecated_to : Option String := none
  no_input : BSF := .b false
  no_output : BSF := .b false
  immutable : Bool := false
  required : BS := .b true
  default : Option DefaultVal := none
  unprovided : Option DefaultVal := none
  dependencies : Option (List String) := none
  discriminator : Option String := none
  on_error : Option Policy := none
  mode : String := ""

/-- Constructor arguments of `Field.__init__` that participate in validation
and in the attributes modelled above.  `none` / `false` / `""` are the source
defaults (None is falsy, as is an empty mode string). -/
structure FieldArgs where
  alias_ : Option String := none
  alias_generator : Option (String → String) := none
  alias_from : AF := .noneA
  case_insensitive : Bool := false
  required : Option BS := none
  readonly : Bool := false
  writeonly : Bool := false
  mode : String := ""
  default : Option DefaultVal := none
  deprecated : BS := .b false
  discriminator : Option String := none
  no_input : BSF := .b false
  no_output : BSF := .b false
  on_error : Option Policy := none
  unprovided : Option DefaultVal := none
  immutable : Bool := false
  dependencies : Option (List String) := none

/-- Python truthiness of the `deprecated` argument (bool or string). -/
def BS.truthy : BS → Bool
  | .b x => x
  | .s x => x != ""

/-- The check `no_input not in mode` (resp. `no_output`) of `Field.__init__`:
it fires only for a string-valued option and only when the effective mode is
truthy, and uses Python substring containment. -/
def strOptionOutsideMode (x : BSF) (mode : String) : Bool :=
  match x with
  | .s s => mode != "" && ! strContains mode s
  | _ => false

/-- `Field.__init__` (src/utype/field.py lines 88-166): validates cross-option
conflicts, then populates the attributes.  Raising `ValueError` is modelled by
`Except.error` with the message. -/
def Field.init (a : FieldArgs) : Except String Field :=
  if a.mode ≠ "" ∧ (a.readonly ∨ a.writeonly) then
    .error "Field: mode cannot set with readonly or writeonly"
  else if a.readonly ∧ a.writeonly then
    .error "Field: readonly and writeonly cannot be both specified"
  else
    let mode := if a.readonly then "r" else if a.writeonly then "w" else a.mode
    let required1 := if a.deprecated.truthy then some (BS.b false) else a.required
    let required2 := if a.default.isSome then some (BS.b false) else required1
    let required := required2.getD (BS.b true)
    if strOptionOutsideMode a.no_input mode then
      .error "Field no_input: not in mode"
    else if strOptionOutsideMode a.no_output mode then
      .error "Field no_output: not in mode"
    else
      .ok {
        alias_ := a.alias_
        alias_generator := a.alias_generator
        alias_from := a.alias_from
        case_insensitive := a.case_insensitive
        deprecated := a.deprecated.truthy
        deprecated_to := match a.deprecated with | .s s => some s | _ => none
        no_input := a.no_input
        no_output := a.no_output
        immutable := a.immutable
        required := required
        default := a.default
        unprovided := a.unprovided
        dependencies := a.dependencies
        discriminator := a.discriminator
        on_error := a.on_error
        mode := mode
      }

/-- Add a name to the alias set (Python set semantics on ordered lists). -/
def addAlias (acc : List String) (s : String) : List String :=
  if s ∈ acc then acc else acc ++ [s]

def addAliases (acc : List String) (l : List String) : List String :=
  l.foldl (fun acc a => if a ≠ "" then addAlias acc a else acc) acc

/-- Processing of one `alias_from` entry inside `Field.get_alias_from`:
callables are applied to the attribute name, then list results are expanded and
non-empty strings are collected. -/
def procAFEntry (attname : String) (acc : List String) (e : AFEntry) : List String :=
  match e with
  | .str s => if s ≠ "" then addAlias acc s else acc
  | .strs l => addAliases acc l
  | .fn f =>
    match f attname with
    | .one s => if s ≠ "" then addAlias acc s else acc
    | .more l => addAliases acc l

/-- `Field.get_alias_from` (src/utype/field.py lines 188-206).  The source
aliases the stored list when `alias_from` is already a list and appends the
generator to it (`alias_from = self.alias_from; alias_from.append(generator)`),
mutating the Field; the returned pair carries the alias set together with the
post-call Field state. -/
def Field.get_alias_from (f : Field) (attname : String)
    (generator : Option (String → GenOutNames)) : List String × Field :=
  if ¬ f.alias_from.truthy then ([attname], f)
  else
    let base : List AFEntry :=
      match f.alias_from with
      | .noneA => []
      | .one e => [e]
      | .many l => l
    let entries : List AFEntry :=
      match generator with
      | some g => base ++ [.fn g]
      | none => base
    let stored : AF :=
      match f.alias_from, generator with
      | .many l, some g => .many (l ++ [.fn g])
      | af, _ => af
    (entries.foldl (procAFEntry attname) [attname], { f with alias_from := stored })

/-- A field-scoped parse error (`exc.ParseError`): the item identifier, the
declared type and the offending value. -/
structure PErr where
  item : String
  ty : Ty
  value : Val
deriving Repr

/-- A collected fatal error: a parse error or a required-field absence
(`exc.AbsenceError`). -/
inductive ErrT where
  | parse (e : PErr)
  | absence (item : String)
deriving Repr

/-- Modelled from the spec: `RuntimeOptions` (options.py is not among the
sources) is the per-call configuration consulted by the policy evaluators:
active mode (empty = no active mode), per-call overrides (ignore-required,
no-default, force-default) and the default error policies for invalid values
and invalid positional items. -/
structure ROpts where
  mode : String := ""
  ignore_required : Bool := false
  no_default : Bool := false
  force_default : Option DefaultVal := none
  invalid_values : Policy := .throw
  invalid_items : Policy := .throw

/-- Modelled from the spec: the per-call error context buffers fatal errors
and warnings; `handle_error` escalates to fatal by appending to the error
buffer, `collect_waring` records a warning, and `raise_error` fails when the
buffer is non-empty. -/
structure Ctx where
  errors : List ErrT := []
  warnings : List String := []

/-- Modelled from the spec: escalate an error to fatal through the context. -/
def Ctx.handle_error (c : Ctx) (e : ErrT) : Ctx :=
  { c with errors := c.errors ++ [e] }

/-- Modelled from the spec: record a warning on the context. -/
def Ctx.collect_waring (c : Ctx) (m : String) : Ctx :=
  { c with warnings := c.warnings ++ [m] }

/-- `SchemaField`: a `Field` bound to its resolved type rule, canonical name
and attribute name, together with the discriminator map built at declaration
time.  (The signature-schema builder calls the same entity `ParserField`; the
per-value methods modelled here live on `SchemaField` in src/utype/field.py.) -/
structure SchemaField where
  name : String
  attname : String
  field : Field
  type : Ty
  output_type : Option Ty := none
  discriminator_map : List (Val × Ty) := []

/-- `SchemaField.is_required` (src/utype/field.py lines 441-448). -/
def SchemaField.is_required (f : SchemaField) (o : ROpts) : Bool :=
  if o.ignore_required then false
  else
    match f.field.required with
    | .b x => x
    | .s s => if o.mode == "" then false else strContains o.mode s

/-- `SchemaField.no_input` (src/utype/field.py lines 450-460): explicit bool
first, else a configured callable on the value, else mode-string membership
against the active mode. -/
def SchemaField.no_input (f : SchemaField) (value : Val) (o : ROpts) : Bool :=
  match f.field.no_input with
  | .b x => x
  | .fn g => g value
  | .s s =>
    if o.mode == "" then false
    else if f.field.mode != "" then ! strContains f.field.mode o.mode
    else strContains s o.mode

/-- `SchemaField.no_output` (src/utype/field.py lines 462-472). -/
def SchemaField.no_output (f : SchemaField) (value : Val) (o : ROpts) : Bool :=
  match f.field.no_output with
  | .b x => x
  | .fn g => g value
  | .s s =>
    if o.mode == "" then false
    else if f.field.mode != "" then ! strContains f.field.mode o.mode
    else strContains s o.mode

/-- `SchemaField.get_on_error` (src/utype/field.py lines 432-435). -/
def SchemaField.get_on_error (f : SchemaField) (o : ROpts) : Policy :=
  match f.field.on_error with
  | some p => p
  | none => o.invalid_values

/-- `SchemaField.get_default` (src/utype/field.py lines 418-430): per-call
override first, else the field default; factories are invoked fresh; `none`
models the unprovided sentinel. -/
def SchemaField.get_default (f : SchemaField) (o : ROpts) : Option Val :=
  if o.no_default then none
  else
    match o.force_default with
    | some d => some (evalDefault d)
    | none =>
      match f.field.default with
      | some d => some (evalDefault d)
      | none => none

/-- The target-type selection at the top of `SchemaField.parse_value`
(src/utype/field.py lines 486-491): when a discriminator map is present and the
raw value is a mapping, the tag entry (None when absent) selects the matching
variant; otherwise the declared type stands. -/
def SchemaField.select_type (f : SchemaField) (value : Val) : Ty :=
  if f.discriminator_map.isEmpty then f.type
  else
    match value with
    | .map es =>
      let dv : Val :=
        match f.field.discriminator with
        | some d => (lookupStr es d).getD .vnone
        | none => .vnone
      match lookupVal f.discriminator_map dv with
      | some ty => ty
      | none => f.type
    | _ => f.type

/-- `SchemaField.parse_value` (src/utype/field.py lines 481-516): deprecation
warning, discriminator-based type selection, one transformer invocation, and
policy resolution on coercion failure.  The returned `Option Val` is the
parsed value, `none` modelling the missing-value sentinel `...`. -/
def SchemaField.parse_value (f : SchemaField) (value : Val) (o : ROpts)
    (trans : Val → Ty → Option Val) (c : Ctx) : Option Val × Ctx :=
  let c :=
    if f.field.deprecated then c.collect_waring ("deprecated: " ++ f.name) else c
  let ty := f.select_type value
  match trans value ty with
  | some r => (some r, c)
  | none =>
    let error : PErr := { item := f.name, ty := f.type, value := value }
    match f.get_on_error o with
    | .exclude =>
      if f.is_required o then (none, c.handle_error (.parse error))
      else (none, c.collect_waring (error.item ++ ": parse failed"))
    | .preserve =>
      (some value, c.collect_waring (error.item ++ ": parse failed"))
    | .throw => (none, c.handle_error (.parse error))

/-- Whether a discriminator constant is a common-type literal
(`isinstance(const, (int, str, bool))`). -/
def Val.isPrimConst : Val → Bool
  | .int _ => true
  | .str _ => true
  | .bool _ => true
  | _ => false

/-- The member loop of `SchemaField.validate_annotation` (src/utype/field.py
lines 315-344): each member must be a schema class containing the tag field
with a primitive literal constant, pairwise distinct. -/
def buildDiscriminatorMap (d : String) :
    List Ty → List (Val × Ty) → Except String (List (Val × Ty))
  | [], acc => .ok acc
  | t :: rest, acc =>
    match t with
    | .schemaCls _ fields =>
      match lookupStr fields d with
      | none => .error "discriminator field was not found in member type"
      | some none => .error "no common type const set for discriminator field"
      | some (some v) =>
        if v.isPrimConst then
          if (lookupVal acc v).isSome then
            .error "duplicate discriminator value"
          else buildDiscriminatorMap d rest (acc ++ [(v, t)])
        else .error "no common type const set for discriminator field"
    | _ => .error "member type is not a schema class"

/-- `SchemaField.validate_annotation` (src/utype/field.py lines 303-349),
named `validate_discriminator` in the spec: with a discriminator configured,
the type must be a logical any-of or one-of combination and the member loop
builds the tag-to-variant map; every other shape is a configuration error. -/
def validate_discriminator (disc : Option String) (ty : Ty) :
    Except String (List (Val × Ty)) :=
  match disc with
  | none => .ok []
  | some d =>
    let comb : Option (String × List Ty) :=
      match ty with
      | .logical (some c) args => some (c, args)
      | _ => none
    match comb with
    | none => .error "common type does not support discriminator"
    | some (c, args) =>
      if c = "|" ∨ c = "^" then buildDiscriminatorMap d args []
      else .error "combinator does not support discriminator"

/-- The kind of an `inspect.Parameter`. -/
inductive PKind where
  | posOnly
  | posOrKw
  | varPos
  | kwOnly
  | varKw
deriving DecidableEq, Repr

/-- One signature parameter as seen by `FunctionParser.validate_fields`: its
name, kind, whether the raw parameter carries a default
(`v.default != v.empty`), and the schema field resolved for it
(`self.get_field(k)`, `none` for excluded names). -/
structure ParamM where
  name : String
  kind : PKind
  hasRawDefault : Bool
  field : Option SchemaField

/-- The default-order loop of `FunctionParser.validate_fields`
(src/utype/parser/func.py lines 392-420), carrying the last optional
parameter name and the warnings emitted so far; a violation on a
positional-only parameter raises `SyntaxError` (`Except.error`). -/
def validate_fields_loop :
    List ParamM → Option String → List String → Except String (List String)
  | [], _, ws => .ok ws
  | p :: rest, opt, ws =>
    if p.kind = .varPos ∨ p.kind = .varKw ∨ p.kind = .kwOnly then
      validate_fields_loop rest opt ws
    else
      let required : Bool :=
        match p.field with
        | some f => f.field.default.isNone
        | none => p.hasRawDefault
      if required then
        match opt with
        | some oname =>
          let msg := "non-default argument " ++ p.name ++
            " follows default argument " ++ oname
          if p.kind = .posOnly then .error msg
          else validate_fields_loop rest opt (ws ++ [msg])
        | none => validate_fields_loop rest opt ws
      else validate_fields_loop rest (some p.name) ws

/-- `FunctionParser.validate_fields` (src/utype/parser/func.py lines 383-420),
restricted to its default-order rule: returns the collected warnings, or the
fatal message for a violation on a positional-only parameter. -/
def validate_fields (ps : List ParamM) : Except String (List String) :=
  validate_fields_loop ps none []

/-- The signature-level data of a `FunctionParser` used by parameter, result
and generator parsing.  `positional_fields` maps a positional index to its
field, `positional_only_fields` lists the positional-only fields,
`kw_fields` is the non-positional field map consumed by the bulk keyword
step, and `pos_var_index` is the index of `*args` when declared. -/
structure FunctionParser where
  positional_fields : List (Nat × SchemaField) := []
  positional_only_fields : List (Nat × SchemaField) := []
  kw_fields : List (String × SchemaField) := []
  pos_var_index : Option Nat := none
  position_type : Option Ty := none
  return_type : Option Ty := none
  generator_yield_type : Option Ty := none
  generator_send_type : Option Ty := none
  generator_return_type : Option Ty := none

/-- Item identifier of a positional overflow value. -/
def posItem (i : Nat) : String := "<args[" ++ toString i ++ "]>"

/-- `FunctionParser.parse_pos_type` (src/utype/parser/func.py lines 484-503):
coerce a positional overflow value against the variadic element type; on
failure, preserve keeps the raw value with a warning, exclude drops it with a
warning, and otherwise the error escalates while the raw value is kept for the
later bulk raise. -/
def FunctionParser.parse_pos_type (p : FunctionParser) (index : Nat) (value : Val)
    (o : ROpts) (trans : Val → Ty → Option Val) (c : Ctx) : Option Val × Ctx :=
  match p.position_type with
  | none => (some value, c)
  | some pt =>
    match trans value pt with
    | some v => (some v, c)
    | none =>
      let error : PErr := { item := posItem index, ty := pt, value := value }
      match o.invalid_items with
      | .preserve => (some value, c.collect_waring (error.item ++ ": parse failed"))
      | .exclude => (none, c.collect_waring (error.item ++ ": parse failed"))
      | .throw => (some value, c.handle_error (.parse error))

/-- Step 1 of `FunctionParser.parse_params` (src/utype/parser/func.py lines
517-535): walk the given positional arguments, routing overflow through
`parse_pos_type` and matched positions through no-input substitution or
`parse_value`; accumulates parsed args, parsed attribute names and the
context. -/
def FunctionParser.parse_args_from (p : FunctionParser) (o : ROpts)
    (trans : Val → Ty → Option Val) :
    Nat → List Val → List Val × List String × Ctx → List Val × List String × Ctx
  | _, [], st => st
  | i, arg :: rest, (pa, pk, c) =>
    if (match p.pos_var_index with | some k => decide (k ≤ i) | none => false) then
      match p.parse_pos_type i arg o trans c with
      | (none, c') => p.parse_args_from o trans (i + 1) rest (pa, pk, c')
      | (some v, c') => p.parse_args_from o trans (i + 1) rest (pa ++ [v], pk, c')
    else
      match lookupNat p.positional_fields i with
      | none => p.parse_args_from o trans (i + 1) rest (pa ++ [arg], pk, c)
      | some field =>
        if field.no_input arg o then
          match field.get_default o with
          | none => p.parse_args_from o trans (i + 1) rest (pa, pk, c)
          | some d => p.parse_args_from o trans (i + 1) rest (pa ++ [d], pk, c)
        else
          match field.parse_value arg o trans c with
          | (none, c') =>
            p.parse_args_from o trans (i + 1) rest (pa, pk ++ [field.attname], c')
          | (some v, c') =>
            p.parse_args_from o trans (i + 1) rest
              (pa ++ [v], pk ++ [field.attname], c')

/-- Step 2 of `FunctionParser.parse_params` (src/utype/parser/func.py lines
537-549): positional-only fields not supplied positionally either escalate an
`AbsenceError` when required, or contribute their default when one exists. -/
def parse_pos_defaults (o : ROpts) :
    List (Nat × SchemaField) → List Val × List String × Ctx →
    List Val × List String × Ctx
  | [], st => st
  | (_, field) :: rest, (pa, pk, c) =>
    if field.attname ∈ pk then parse_pos_defaults o rest (pa, pk, c)
    else if field.is_required o then
      parse_pos_defaults o rest (pa, pk, c.handle_error (.absence field.attname))
    else
      match field.get_default o with
      | none => parse_pos_defaults o rest (pa, pk, c)
      | some d => parse_pos_defaults o rest (pa ++ [d], pk ++ [field.attname], c)

/-- One step of the bulk keyword validation: resolve the key against the
non-positional field map, skip keys already consumed positionally, parse the
value through the field. -/
def parse_data_step (p : FunctionParser) (o : ROpts)
    (trans : Val → Ty → Option Val) (excluded : List String)
    (st : List (String × Val) × Ctx) (kv : String × Val) :
    List (String × Val) × Ctx :=
  match lookupStr p.kw_fields kv.1 with
  | none => st
  | some field =>
    if field.attname ∈ excluded then st
    else
      match field.parse_value kv.2 o trans st.2 with
      | (none, c') => (st.1, c')
      | (some r, c') => (st.1 ++ [(field.attname, r)], c')

/-- Modelled from the spec: `parse_data` lives in the base parser (base.py is
not among the sources).  Remaining keyword arguments are validated in bulk
against the non-positional field map, keys already consumed positionally are
excluded, and unknown keys are dropped (variadic-keyword extras are outside
these claims). -/
def FunctionParser.parse_data (p : FunctionParser) (o : ROpts)
    (trans : Val → Ty → Option Val) (kwargs : List (String × Val))
    (excluded : List String) (c : Ctx) : List (String × Val) × Ctx :=
  kwargs.foldl (parse_data_step p o trans excluded) ([], c)

/-- `FunctionParser.parse_params` (src/utype/parser/func.py lines 505-555):
steps 1 and 2 above, the bulk keyword step, then `context.raise_error()`,
which fails with the collected errors when any were escalated. -/
def FunctionParser.parse_params (p : FunctionParser) (o : ROpts)
    (trans : Val → Ty → Option Val) (args : List Val)
    (kwargs : List (String × Val)) (c : Ctx) :
    Except (List ErrT) (List Val × List (String × Val)) :=
  let st1 := p.parse_args_from o trans 0 args ([], [], c)
  let st2 := parse_pos_defaults o p.positional_only_fields st1
  let pd := p.parse_data o trans kwargs st2.2.1 st2.2.2
  if pd.2.errors.isEmpty then .ok (st2.1, pd.1) else .error pd.2.errors

/-- `FunctionParser.parse_result` (src/utype/parser/func.py lines 589-598):
one coercion of the call result against the declared return type; a failure is
escalated with `force_raise=True`, which raises regardless of any error
policy, so the outcome is an `Except` and the context only ever gains the
error. -/
def FunctionParser.parse_result (p : FunctionParser) (result : Val) (o : ROpts)
    (trans : Val → Ty → Option Val) (c : Ctx) : Except PErr Val × Ctx :=
  match p.return_type with
  | none => (.ok result, c)
  | some rt =>
    match trans result rt with
    | some r => (.ok r, c)
    | none =>
      let error : PErr := { item := "<return>", ty := rt, value := result }
      (.error error, c.handle_error (.parse error))

/-- Outcome of resuming a generator: it yields a plain value, yields a nested
generator object, or finishes (`StopIteration` carrying the return value,
`Val.vnone` for a plain return). -/
inductive GenOut (G : Type) where
  | yieldVal (v : Val) (next : G)
  | yieldGen (g : G) (next : G)
  | stop (ret : Val)

/-- A synchronous generator: resuming it with `none` models `next(g)` and with
`some v` models `g.send(v)`. -/
inductive GenS where
  | mk (resume : Option Val → GenOut GenS)

def GenS.resume : GenS → Option Val → GenOut GenS
  | .mk f => f

/-- Item identifier of a failed yield coercion. -/
def genYieldItem (i : Nat) : String :=
  "<generator.yield[" ++ toString i ++ "]>"

/-- Item identifier of a failed send coercion. -/
def genSendItem (i : Nat) : String :=
  "<generator.send[" ++ toString i ++ "]>"

/-- How one run of the wrapper generator ends. -/
inductive GenOutcome where
  | finished (ret : Val)
  | reraised (ret : Val)
  | errored (e : PErr)
  | suspended
  | sendStopped (ret : Val)
  | fuelOut

/-- The observable behaviour of one run of the wrapper generator: the values
it yielded outward, and how it ended. -/
structure GenRun where
  outs : List Val
  outcome : GenOutcome

/-- `FunctionParser.sync_generator` (src/utype/parser/func.py lines 600-654),
run against an outer interaction script: after each outward yield the script
supplies `none` for a plain `next` or `some v` for a `send(v)`; an exhausted
script leaves the wrapper suspended.  Per loop iteration: the underlying
generator is resumed; on `StopIteration` a `None` result or an absent return
type re-raises, otherwise the return value is coerced (failure is fatal); a
yielded nested generator replaces the underlying generator (tail call, index
not incremented); a yielded value is coerced against the yield type (failure
is fatal, tagged with the yield index) and re-yielded; a non-None sent value
is coerced against the send type (failure is fatal) and forwarded through
`generator.send`, whose own yield is discarded (a `StopIteration` escaping
`send` is not caught); then the index increments.  `fuel` bounds the number of
iterations so the loop is total. -/
def FunctionParser.sync_generator (p : FunctionParser)
    (trans : Val → Ty → Option Val) :
    Nat → GenS → Nat → List (Option Val) → List Val → GenRun
  | 0, _, _, _, outs => { outs := outs, outcome := .fuelOut }
  | Nat.succ fuel, g, i, sends, outs =>
    match g.resume none with
    | .stop ret =>
      if ret.isNoneV then { outs := outs, outcome := .reraised ret }
      else
        match p.generator_return_type with
        | none => { outs := outs, outcome := .reraised ret }
        | some rt =>
          match trans ret rt with
          | some r => { outs := outs, outcome := .finished r }
          | none =>
            { outs := outs
              outcome := .errored { item := "<generator.return>", ty := rt, value := ret } }
    | .yieldGen g2 _ => p.sync_generator trans fuel g2 i sends outs
    | .yieldVal item g1 =>
      let coerced : Except PErr Val :=
        match p.generator_yield_type with
        | none => .ok item
        | some yt =>
          match trans item yt with
          | some v => .ok v
          | none => .error { item := genYieldItem i, ty := yt, value := item }
      match coerced with
      | .error e => { outs := outs, outcome := .errored e }
      | .ok item' =>
        match sends with
        | [] => { outs := outs ++ [item'], outcome := .suspended }
        | sent? :: rest =>
          match sent? with
          | none => p.sync_generator trans fuel g1 (i + 1) rest (outs ++ [item'])
          | some sv =>
            let csent : Except PErr Val :=
              match p.generator_send_type with
              | none => .ok sv
              | some st =>
                match trans sv st with
                | some v => .ok v
                | none => .error { item := genSendItem i, ty := st, value := sv }
            match csent with
            | .error e => { outs := outs ++ [item'], outcome := .errored e }
            | .ok sv' =>
              match g1.resume (some sv') with
              | .stop ret => { outs := outs ++ [item'], outcome := .sendStopped ret }
              | .yieldVal _ g2 =>
                p.sync_generator trans fuel g2 (i + 1) rest (outs ++ [item'])
              | .yieldGen _ g2 =>
                p.sync_generator trans fuel g2 (i + 1) rest (outs ++ [item'])

/-- Declaration-time `Options`, reduced to representative configuration
fields; `vacuum` holds when nothing is configured.  (options.py is not among
the sources; the merge behaviour below is modelled from the spec.) -/
structure OptionsM where
  case_insensitive : Option Bool := none
  mode : Option String := none
  invalid_values : Option Policy := none

def OptionsM.vacuum (o : OptionsM) : Bool :=
  o.case_insensitive.isNone && o.mode.isNone && o.invalid_values.isNone

/-- Modelled from the spec: merging two Options lets the later (more specific)
one override the earlier field-by-field. -/
def OptionsM.merge2 (a b : OptionsM) : OptionsM :=
  { case_insensitive := (b.case_insensitive).or a.case_insensitive
    mode := (b.mode).or a.mode
    invalid_values := (b.invalid_values).or a.invalid_values }

/-- Modelled from the spec: `Options.generate_from` composes a list of Options
with later entries overriding earlier ones. -/
def OptionsM.generate_from (l : List OptionsM) : OptionsM :=
  l.foldl OptionsM.merge2 {}

/-- Python `dict.update(d, e)` on association lists: keys of `d` keep their
position with values overridden by `e`, and new keys of `e` are appended. -/
def dictUpdate {α : Type} (d e : List (String × α)) : List (String × α) :=
  d.map (fun p => (p.1, (lookupStr e p.1).getD p.2)) ++
    e.filter (fun q => (lookupStr d q.1).isNone)

/-- Python `set.update(a, b)` on ordered lists. -/
def setUpdate (a b : List String) : List String :=
  a ++ b.filter (fun x => decide (x ∉ a))

/-- The per-base state a `ClassParser` exposes to its subclasses: field map,
exclusion set, alias maps, case-insensitive names, and merged options. -/
structure ParserS where
  fields : List (String × SchemaField) := []
  exclude_vars : List String := []
  field_alias_map : List (String × String) := []
  attr_alias_map : List (String × String) := []
  case_insensitive_names : List String := []
  options : OptionsM := {}

/-- `ClassParser.generate_from_bases` (src/utype/parser/cls.py lines 159-190):
the bases are processed in reverse declaration order (`reversed(__bases__)`,
oldest first according to the MRO) and each non-object schema base updates the
accumulated maps and sets, so a later-processed base overrides an earlier one;
the non-vacuum options are collected in processing order and the current
class options are appended last before composition.  The source updates all
components in one loop; the fold is written componentwise here, which yields
the same result. -/
def generate_from_bases (bases : List ParserS) (cls_options : Option OptionsM) :
    ParserS :=
  let ordered := bases.reverse
  let option_list :=
    (ordered.filter (fun p => ! p.options.vacuum)).map (fun p => p.options) ++
      (match cls_options with | some o => [o] | none => [])
  { fields := ordered.foldl (fun acc p => dictUpdate acc p.fields) []
    exclude_vars := ordered.foldl (fun acc p => setUpdate acc p.exclude_vars) []
    field_alias_map :=
      ordered.foldl (fun acc p => dictUpdate acc p.field_alias_map) []
    attr_alias_map :=
      ordered.foldl (fun acc p => dictUpdate acc p.attr_alias_map) []
    case_insensitive_names :=
      ordered.foldl (fun acc p => setUpdate acc p.case_insensitive_names) []
    options := OptionsM.generate_from option_list }

/-- The layering of the current class declarations over the merged base state:
`ClassParser.generate_fields` ends with `self.fields.update(field_map)`
(src/utype/parser/cls.py line 157), so the own declarations override all
bases. -/
def layer_own (merged : ParserS) (own_fields : List (String × SchemaField)) :
    ParserS :=
  { merged with fields := dictUpdate merged.fields own_fields }

/-! Concrete fixtures: a small executable transformer standing in for the
external Transformer capability, and the schemas, fields and signatures the
concrete theorems evaluate. -/

/-- Decimal digit parsing on a character list. -/
def parseDigits : List Char → Nat → Option Nat
  | [], acc => some acc
  | c :: rest, acc =>
    if c.isDigit then parseDigits rest (acc * 10 + (c.toNat - 48)) else none

/-- Parse a non-empty all-digit string as an integer. -/
def parseIntStr (s : String) : Option Int :=
  match s.data with
  | [] => none
  | l => (parseDigits l 0).map Int.ofNat

/-- A concrete transformer on non-logical types: int accepts ints and numeric
strings, str accepts strings and ints, a schema class accepts a mapping whose
constant-carrying fields match their constants. -/
def transAtom (v : Val) (t : Ty) : Option Val :=
  match t with
  | .base "int" =>
    match v with
    | .int n => some (.int n)
    | .str s => (parseIntStr s).map (fun n => .int n)
    | .bool b => some (.int (if b then 1 else 0))
    | _ => none
  | .base "str" =>
    match v with
    | .str s => some (.str s)
    | .int n => some (.str (toString n))
    | _ => none
  | .base "any" => some v
  | .schemaCls _ fields =>
    match v with
    | .map es =>
      if fields.all (fun kv =>
          match kv.2 with
          | some cv =>
            match lookupStr es kv.1 with
            | some x => x.primEq cv
            | none => false
          | none => true) then some (.map es)
      else none
    | _ => none
  | _ => none

/-- The demo transformer: a logical type tries its members in order. -/
def transDemo (v : Val) (t : Ty) : Option Val :=
  match t with
  | .logical _ args => args.findSome? (fun a => transAtom v a)
  | _ => transAtom v t

/-- Whether an `Except` is an error. -/
def isErrE {ε α : Type} : Except ε α → Bool
  | .error _ => true
  | .ok _ => false

/-- The effective mode a constructed Field carries: `r` / `w` when implied by
readonly / writeonly, else the given mode. -/
def effMode (a : FieldArgs) : String :=
  if a.readonly then "r" else if a.writeonly then "w" else a.mode

/-- Character-set inclusion of one string in another, the subset reading of
the claim. -/
def charSubset (needle hay : String) : Bool :=
  needle.data.all (fun ch => hay.data.contains ch)

/-- The failure condition of claim C7 read literally: both readonly and
writeonly; mode set together with readonly or writeonly; or a string-valued
no-input or no-output that is not a (character-set) subset of the field mode. -/
def field_init_fails_spec (a : FieldArgs) : Bool :=
  (a.readonly && a.writeonly) ||
  (a.mode != "" && (a.readonly || a.writeonly)) ||
  (match a.no_input with
   | .s s => ! charSubset s (effMode a)
   | _ => false) ||
  (match a.no_output with
   | .s s => ! charSubset s (effMode a)
   | _ => false)

/-- The amended failure condition: the string no-input / no-output test only
applies when the effective mode is non-empty, and uses Python substring
containment rather than character-set inclusion. -/
def field_init_fails_amended (a : FieldArgs) : Bool :=
  (a.readonly && a.writeonly) ||
  (a.mode != "" && (a.readonly || a.writeonly)) ||
  strOptionOutsideMode a.no_input (effMode a) ||
  strOptionOutsideMode a.no_output (effMode a)

/-- Constructor arguments separating the claim from the code: `no_input="wr"`
is a character-set subset of `mode="rw"` but not a substring of it. -/
def aC7 : FieldArgs := { mode := "rw", no_input := .s "wr" }

/-- A Field whose `alias_from` is a stored list with one entry. -/
def f9 : Field := { alias_from := .many [.str "x"] }

/-- An alias generator. -/
def g9 : String → GenOutNames := fun _ => .one "g1"

/-- Size of the stored `alias_from`, to observe mutation. -/
def afLen : AF → Nat
  | .noneA => 0
  | .one _ => 1
  | .many l => l.length

/-- Discriminated-union fixtures: two schema variants with literal tags 1 and
2. -/
def ty1 : Ty := .schemaCls "V1" [("tag", some (.int 1)), ("a", none)]

def ty2 : Ty := .schemaCls "V2" [("tag", some (.int 2)), ("b", none)]

def tyU : Ty := .logical (some "|") [ty1, ty2]

def vTag1 : Val := .map [("tag", .int 1), ("a", .str "u")]

def vTag2 : Val := .map [("tag", .int 2), ("b", .str "u")]

def vTag3 : Val := .map [("tag", .int 3)]

/-- The discriminated field: its declared type is the union and its
discriminator map was built by `validate_discriminator`. -/
def fC4 : SchemaField :=
  { name := "item", attname := "item", field := { discriminator := some "tag" },
    type := tyU, discriminator_map := [(.int 1, ty1), (.int 2, ty2)] }

/-- The signature data of a wrapped generator declared
`Generator[int, int, str]`. -/
def pG : FunctionParser :=
  { generator_yield_type := some (.base "int")
    generator_send_type := some (.base "int")
    generator_return_type := some (.base "str") }

/-- An underlying generator yielding "3" then "x" (then returning None). -/
def gXY : GenS :=
  .mk (fun _ => .yieldVal (.str "3")
    (.mk (fun _ => .yieldVal (.str "x") (.mk (fun _ => .stop .vnone)))))

/-- An underlying generator yielding "3" then "4", then returning 9. -/
def g34 : GenS :=
  .mk (fun _ => .yieldVal (.str "3")
    (.mk (fun _ => .yieldVal (.str "4") (.mk (fun _ => .stop (.int 9))))))

/-- A parameter is subject to the default-order check when it is neither
variadic nor keyword-only (the loop continues past the others). -/
def checkedParam (p : ParamM) : Bool :=
  p.kind != .varPos && p.kind != .varKw && p.kind != .kwOnly

/-- Whether the schema field resolved for a parameter carries a default. -/
def fieldHasDefault (p : ParamM) : Bool :=
  match p.field with
  | some f => f.field.default.isSome
  | none => false

/-- A schema field for a plain parameter with no default. -/
def sfNoDefault (n : String) : SchemaField :=
  { name := n, attname := n, field := {}, type := .base "any" }

/-- A schema field for a parameter with default 1. -/
def sfDefault1 (n : String) : SchemaField :=
  { name := n, attname := n,
    field := { required := .b false, default := some (.val (.int 1)) },
    type := .base "any" }

/-- The signature `(a, b=1, *, c)` of the claim: `c` is keyword-only and
default-less. -/
def psC2kw : List ParamM :=
  [ { name := "a", kind := .posOrKw, hasRawDefault := false,
      field := some (sfNoDefault "a") },
    { name := "b", kind := .posOrKw, hasRawDefault := true,
      field := some (sfDefault1 "b") },
    { name := "c", kind := .kwOnly, hasRawDefault := false,
      field := some (sfNoDefault "c") } ]

/-- The claim, read literally, expects a non-fatal violation on `psC2kw`: `c`
lacks a default and is not strictly positional, and follows the optional `b`,
so a warning should be emitted. -/
def specC2_expects_warning (ps : List ParamM) : Bool :=
  (List.range ps.length).any (fun j =>
    (List.range j).any (fun i =>
      match ps.get? i, ps.get? j with
      | some x, some y =>
        checkedParam x && fieldHasDefault x &&
          y.kind != .varPos && y.kind != .varKw && ! fieldHasDefault y &&
          y.kind != .posOnly
      | _, _ => false))

/-- The parameters of the shape `(a, b=1, c=Field(), /)`: Python accepts it
(every parameter has a default expression) but the field of `c` carries no
default, and all three are strictly positional. -/
def paF : ParamM :=
  { name := "a", kind := .posOnly, hasRawDefault := false,
    field := some (sfNoDefault "a") }

def pbF : ParamM :=
  { name := "b", kind := .posOnly, hasRawDefault := true,
    field := some (sfDefault1 "b") }

def pcF : ParamM :=
  { name := "c", kind := .posOnly, hasRawDefault := true,
    field := some (sfNoDefault "c") }

def psC2fatal : List ParamM := [paF, pbF, pcF]

/-- The shape `(a, b=1, c=Field())` with `c` positional-or-keyword. -/
def psC2warn : List ParamM :=
  [ { name := "a", kind := .posOrKw, hasRawDefault := false,
      field := some (sfNoDefault "a") },
    { name := "b", kind := .posOrKw, hasRawDefault := true,
      field := some (sfDefault1 "b") },
    { name := "c", kind := .posOrKw, hasRawDefault := true,
      field := some (sfNoDefault "c") } ]

/-- The last `some` of a list of options: later entries override earlier
ones. -/
def lastSome? {α : Type} (l : List (Option α)) : Option α :=
  l.reverse.findSome? id

/-- A required positional-only field under exclude policies, for the C5
witness. -/
def sfPosReq : SchemaField :=
  { name := "x", attname := "x", field := { on_error := some .exclude },
    type := .base "int" }

/-- A signature with one required positional-only field. -/
def pPosOnly : FunctionParser := { positional_only_fields := [(0, sfPosReq)] }

/-- Runtime options whose call-level policy is exclude. -/
def oExclude : ROpts := { invalid_values := .exclude }

/-- The context after the deprecation step at the top of `parse_value`. -/
def dep_ctx (f : SchemaField) (c : Ctx) : Ctx :=
  if f.field.deprecated then c.collect_waring ("deprecated: " ++ f.name) else c

/-- A fatal default-order violation inside a parameter suffix: some checked
(non-variadic, non-keyword-only) parameter with a default-less field is
strictly positional and is preceded, inside the suffix, by a checked
parameter whose field has a default, or `opt` records that such a parameter
was already seen before the suffix. -/
def ViolationAt (ps : List ParamM) (opt : Bool) : Prop :=
  ∃ l2 y l3, ps = l2 ++ y :: l3 ∧ checkedParam y = true ∧
    fieldHasDefault y = false ∧ y.kind = .posOnly ∧
    (opt = true ∨ ∃ l2a x l2b, l2 = l2a ++ x :: l2b ∧
      checkedParam x = true ∧ fieldHasDefault x = true)

end Utype

namespace Utype

/-! Helper lemmas shared by the claim theorems. -/

theorem is_required_ignore (f : SchemaField) (o : ROpts)
    (h : o.ignore_required = true) : f.is_required o = false := by
  simp [SchemaField.is_required, h]

theorem collect_waring_errors (c : Ctx) (m : String) :
    (c.collect_waring m).errors = c.errors := rfl

theorem handle_error_errors (c : Ctx) (e : ErrT) :
    (c.handle_error e).errors = c.errors ++ [e] := rfl

/-- C7 (counterexample): with `mode="rw"` and `no_input="wr"`, the string
no-input is a character-set subset of the mode, so none of the failure
conditions of the claim hold, yet `Field.__init__` raises, because the source
tests Python substring containment rather than subset inclusion. -/
theorem C7_counterexample :
    isErrE (Field.init aC7) = true ∧ field_init_fails_spec aC7 = false :=
  ⟨rfl, rfl⟩

/-- C7 (amended): constructing a Field fails with a configuration error
exactly when both readonly and writeonly are set; mode is set together with
readonly or writeonly; or the effective mode (the given mode, or the one
implied by readonly / writeonly) is non-empty and a string-valued no-input or
no-output is not a contiguous substring of it. -/
theorem C7_field_init_fails_iff (a : FieldArgs) :
    isErrE (Field.init a) = field_init_fails_amended a := by
  cases hro : a.readonly <;> cases hwo : a.writeonly <;>
    by_cases hm : a.mode = "" <;>
      simp [Field.init, field_init_fails_amended, effMode, hro, hwo, hm,
        apply_ite isErrE, isErrE] <;>
      rcases h1 : strOptionOutsideMode a.no_input
        (if a.readonly = true then "r"
          else if a.writeonly = true then "w" else a.mode) <;>
      rcases h2 : strOptionOutsideMode a.no_output
        (if a.readonly = true then "r"
          else if a.writeonly = true then "w" else a.mode) <;>
      simp_all

/-- C9 (code evaluated at the failing input): calling `get_alias_from` on a
Field whose `alias_from` is the stored list `["x"]`, with an alias generator
supplied, returns the alias set and leaves the Field with a two-element
`alias_from` (the generator was appended to the stored list), contradicting
the never-mutated lifecycle the spec states. -/
theorem C9_get_alias_from_mutates :
    (Field.get_alias_from f9 "a" (some g9)).1 = ["a", "x", "g1"] ∧
    afLen f9.alias_from = 1 ∧
    afLen (Field.get_alias_from f9 "a" (some g9)).2.alias_from = 2 :=
  ⟨rfl, rfl, rfl⟩

/-- C10: when the per-call options set ignore-required, `is_required` returns
false for every field, whatever its declared requiredness; consequently an
invalid value under resolved exclude policy is dropped with a warning and no
fatal escalation, and an absent positional-only field adds no absence error. -/
theorem C10_ignore_required :
    (∀ (f : SchemaField) (o : ROpts), o.ignore_required = true →
      f.is_required o = false) ∧
    (∀ (f : SchemaField) (v : Val) (o : ROpts) (trans : Val → Ty → Option Val)
      (c : Ctx), o.ignore_required = true → f.get_on_error o = .exclude →
      trans v (f.select_type v) = none →
      (f.parse_value v o trans c).1 = none ∧
      (f.parse_value v o trans c).2.errors = c.errors) ∧
    (∀ (o : ROpts) (i : Nat) (field : SchemaField)
      (st : List Val × List String × Ctx), o.ignore_required = true →
      field.attname ∉ st.2.1 →
      (parse_pos_defaults o [(i, field)] st).2.2.errors = st.2.2.errors) := by
  refine ⟨fun f o h => is_required_ignore f o h, ?_, ?_⟩
  · intro f v o trans c h hpol hfail
    simp [SchemaField.parse_value, hfail, hpol, is_required_ignore f o h,
      collect_waring_errors, apply_ite Ctx.errors]
  · intro o i field st h habs
    obtain ⟨pa, pk, c⟩ := st
    simp only [parse_pos_defaults, is_required_ignore field o h]
    simp only [List.mem_singleton] at habs
    rw [if_neg habs]
    simp
    split <;> rfl

/-- C10 witness: a concrete declared-required field under ignore-required
options: not required, invalid value dropped with no fatal escalation, absence
adds no error. -/
theorem C10_ignore_required_witness :
    sfPosReq.is_required { ignore_required := true } = false ∧
    (sfPosReq.parse_value (.str "zz") { ignore_required := true }
      transDemo { }).1 = none ∧
    (sfPosReq.parse_value (.str "zz") { ignore_required := true }
      transDemo { }).2.errors = [] ∧
    (parse_pos_defaults { ignore_required := true } [(0, sfPosReq)]
      ([], [], { })).2.2.errors = [] := by
  refine ⟨C10_ignore_required.1 sfPosReq { ignore_required := true } rfl, ?_, ?_, ?_⟩
  · exact (C10_ignore_required.2.1 sfPosReq (.str "zz")
      { ignore_required := true } transDemo { } rfl rfl rfl).1
  · exact (C10_ignore_required.2.1 sfPosReq (.str "zz")
      { ignore_required := true } transDemo { } rfl rfl rfl).2
  · exact C10_ignore_required.2.2 { ignore_required := true } 0 sfPosReq
      ([], [], { }) rfl (by simp)

/-- C1: on coercion failure, `parse_value` resolves the error policy as the
spec states: exclude with the field currently required escalates to fatal
through the context; exclude otherwise drops the value (missing sentinel) and
records a warning; preserve returns the raw value and records a warning;
throw escalates to fatal.  `c1` is the context after the deprecation step at
the top of `parse_value`. -/
theorem C1_parse_value_policy (f : SchemaField) (v : Val) (o : ROpts)
    (trans : Val → Ty → Option Val) (c : Ctx)
    (hfail : trans v (f.select_type v) = none) :
    (f.get_on_error o = .exclude → f.is_required o = true →
      f.parse_value v o trans c = (none, (dep_ctx f c).handle_error
        (.parse { item := f.name, ty := f.type, value := v }))) ∧
    (f.get_on_error o = .exclude → f.is_required o = false →
      f.parse_value v o trans c =
        (none, (dep_ctx f c).collect_waring (f.name ++ ": parse failed"))) ∧
    (f.get_on_error o = .preserve →
      f.parse_value v o trans c =
        (some v, (dep_ctx f c).collect_waring (f.name ++ ": parse failed"))) ∧
    (f.get_on_error o = .throw →
      f.parse_value v o trans c = (none, (dep_ctx f c).handle_error
        (.parse { item := f.name, ty := f.type, value := v }))) := by
  refine ⟨?_, ?_, ?_, ?_⟩ <;> intro hpol
  · intro hreq
    simp [SchemaField.parse_value, hfail, hpol, hreq, dep_ctx]
  · intro hreq
    simp [SchemaField.parse_value, hfail, hpol, hreq, dep_ctx]
  · simp [SchemaField.parse_value, hfail, hpol, dep_ctx]
  · simp [SchemaField.parse_value, hfail, hpol, dep_ctx]

/-- C1 witness: a concrete required field whose own policy is exclude, with a
value the transformer rejects: the error still escalates to fatal through the
context because the field is required. -/
theorem C1_parse_value_policy_witness :
    sfPosReq.parse_value (.str "zz") { } transDemo { } =
      (none, Ctx.handle_error { }
        (.parse { item := "x", ty := .base "int", value := .str "zz" })) := by
  exact (C1_parse_value_policy sfPosReq (.str "zz") { } transDemo { } rfl).1
    rfl rfl

theorem lookupStr_append {α : Type} (l1 l2 : List (String × α)) (k : String) :
    lookupStr (l1 ++ l2) k = (lookupStr l1 k).or (lookupStr l2 k) := by
  unfold lookupStr
  rw [List.find?_append]
  rcases h1 : l1.find? (fun p => p.1 == k) with _ | p <;> simp [h1]

theorem lookupStr_cons {α : Type} (a : String) (v : α) (t : List (String × α))
    (k : String) :
    lookupStr ((a, v) :: t) k = if a == k then some v else lookupStr t k := by
  unfold lookupStr
  by_cases h : (a == k) = true
  · rw [@List.find?_cons_of_pos _ (fun p => p.1 == k) (a, v) t h]
    simp [h]
  · rw [@List.find?_cons_of_neg _ (fun p => p.1 == k) (a, v) t h]
    simp [h]

theorem lookup_map_override {α : Type} (e : List (String × α)) (k : String) :
    ∀ d : List (String × α),
      lookupStr (d.map (fun p => (p.1, (lookupStr e p.1).getD p.2))) k =
        (lookupStr d k).map (fun v => (lookupStr e k).getD v) := by
  intro d
  induction d with
  | nil => rfl
  | cons hd t ih =>
    obtain ⟨a, v⟩ := hd
    simp only [List.map_cons]
    rw [lookupStr_cons, lookupStr_cons]
    by_cases h : a = k
    · subst h
      simp
    · have hb : (a == k) = false := by simpa using h
      simp [hb, ih]

theorem lookup_filter_key {α : Type} (f : String → Bool) (k : String) :
    ∀ e : List (String × α),
      lookupStr (e.filter (fun q => f q.1)) k =
        if f k then lookupStr e k else none := by
  intro e
  induction e with
  | nil => simp [lookupStr]
  | cons hd t ih =>
    obtain ⟨a, v⟩ := hd
    by_cases hak : a = k
    · subst hak
      by_cases hfa : f a
      · simp [List.filter_cons, hfa, lookupStr_cons]
      · simp [List.filter_cons, hfa, ih]
    · have hb : (a == k) = false := by simpa using hak
      by_cases hfa : f a
      · simp [List.filter_cons, hfa, lookupStr_cons, hb, ih]
      · simp [List.filter_cons, hfa, lookupStr_cons, hb, ih]

theorem lookupStr_dictUpdate {α : Type} (d e : List (String × α)) (k : String) :
    lookupStr (dictUpdate d e) k = (lookupStr e k).or (lookupStr d k) := by
  unfold dictUpdate
  rw [lookupStr_append, lookup_map_override e k d,
    lookup_filter_key (fun s => (lookupStr d s).isNone) k e]
  rcases hd : lookupStr d k with _ | v <;>
    rcases he : lookupStr e k with _ | w <;> simp [hd, he]

theorem lookup_foldl_dictUpdate {α β : Type} (g : β → List (String × α))
    (k : String) :
    ∀ (l : List β) (acc : List (String × α)),
      lookupStr (l.foldl (fun a p => dictUpdate a (g p)) acc) k =
        (l.reverse.findSome? (fun p => lookupStr (g p) k)).or (lookupStr acc k) := by
  intro l
  induction l with
  | nil =>
    intro acc
    simp
  | cons p t ih =>
    intro acc
    simp only [List.foldl_cons, List.reverse_cons]
    rw [ih, List.findSome?_append, lookupStr_dictUpdate]
    rcases hp : lookupStr (g p) k with _ | w <;>
      simp [List.findSome?_cons, hp, Option.or_assoc]

theorem mem_setUpdate (x : String) (a b : List String) :
    x ∈ setUpdate a b ↔ x ∈ a ∨ x ∈ b := by
  unfold setUpdate
  simp only [List.mem_append, List.mem_filter, decide_eq_true_eq]
  tauto

theorem mem_foldl_setUpdate {β : Type} (g : β → List String) (x : String) :
    ∀ (l : List β) (acc : List String),
      x ∈ l.foldl (fun a p => setUpdate a (g p)) acc ↔
        x ∈ acc ∨ ∃ p ∈ l, x ∈ g p := by
  intro l
  induction l with
  | nil =>
    intro acc
    simp
  | cons p t ih =>
    intro acc
    simp only [List.foldl_cons]
    rw [ih, mem_setUpdate]
    constructor
    · rintro (⟨h | h⟩ | ⟨q, hq, hx⟩)
      · exact Or.inl h
      · exact Or.inr ⟨p, by simp, h⟩
      · exact Or.inr ⟨q, by simp [hq], hx⟩
    · rintro (h | ⟨q, hq, hx⟩)
      · exact Or.inl (Or.inl h)
      · rcases List.mem_cons.mp hq with rfl | hq'
        · exact Or.inl (Or.inr hx)
        · exact Or.inr ⟨q, hq', hx⟩

theorem merge_foldl_proj {γ : Type} (h : OptionsM → Option γ)
    (hcomp : ∀ a b, h (OptionsM.merge2 a b) = (h b).or (h a)) :
    ∀ (l : List OptionsM) (acc : OptionsM),
      h (l.foldl OptionsM.merge2 acc) = (lastSome? (l.map h)).or (h acc) := by
  intro l
  induction l with
  | nil =>
    intro acc
    simp [lastSome?]
  | cons p t ih =>
    intro acc
    simp only [List.foldl_cons, List.map_cons]
    rw [ih, hcomp]
    unfold lastSome?
    simp only [List.reverse_cons, List.findSome?_append]
    rcases hp : h p with _ | w <;>
      simp [List.findSome?_cons, hp, Option.or_assoc]

theorem lastSome?_reverse_map {γ β : Type} (F : β → Option γ) (l : List β) :
    lastSome? (l.reverse.map F) = l.findSome? F := by
  unfold lastSome?
  simp [List.map_reverse, List.findSome?_map, Function.comp]

theorem generate_from_proj {γ : Type} (h : OptionsM → Option γ)
    (hcomp : ∀ a b, h (OptionsM.merge2 a b) = (h b).or (h a))
    (hdef : h { } = none) (bases : List ParserS) (cls_opts : Option OptionsM) :
    h (generate_from_bases bases cls_opts).options =
      ((cls_opts.map h).getD none).or
        ((bases.filter (fun b => ! b.options.vacuum)).findSome?
          (fun b => h b.options)) := by
  show h (OptionsM.generate_from
    (((bases.reverse.filter (fun p => ! p.options.vacuum)).map
        (fun p => p.options)) ++
      (match cls_opts with | some o => [o] | none => []))) = _
  unfold OptionsM.generate_from
  rw [merge_foldl_proj h hcomp, hdef, Option.or_none, List.map_append,
    List.filter_reverse]
  unfold lastSome?
  rw [List.reverse_append, List.findSome?_append]
  have hA : ((((bases.filter (fun p => ! p.options.vacuum)).reverse).map
      (fun p => p.options)).map h).reverse.findSome? id =
      (bases.filter (fun b => ! b.options.vacuum)).findSome?
        (fun b => h b.options) := by
    simp only [List.map_reverse, List.reverse_reverse, List.findSome?_map]
    rfl
  rw [hA]
  cases cls_opts with
  | none => simp
  | some o =>
    rcases ho : h o with _ | w <;> simp [List.findSome?_cons, ho]

/-- C8: inheritance composition processes base schemas oldest-first
(reverse declaration order) and merges field maps, alias maps, exclusion
sets and case-insensitive names so that a later-processed base overrides an
earlier-processed one; equivalently, on a conflicting key the first base in
declaration order wins; the current class declarations are layered last over
all bases, and the non-vacuum Options are composed with the current options
last, later-processed bases overriding earlier ones field-by-field. -/
theorem C8_inheritance_composition (bases : List ParserS)
    (cls_opts : Option OptionsM) (own : List (String × SchemaField))
    (k x : String) :
    (lookupStr (layer_own (generate_from_bases bases cls_opts) own).fields k =
      (lookupStr own k).or
        (bases.findSome? (fun b => lookupStr b.fields k))) ∧
    (lookupStr (generate_from_bases bases cls_opts).fields k =
      lastSome? (bases.reverse.map (fun b => lookupStr b.fields k))) ∧
    (lookupStr (generate_from_bases bases cls_opts).fields k =
      bases.findSome? (fun b => lookupStr b.fields k)) ∧
    (lookupStr (generate_from_bases bases cls_opts).field_alias_map k =
      bases.findSome? (fun b => lookupStr b.field_alias_map k)) ∧
    (lookupStr (generate_from_bases bases cls_opts).attr_alias_map k =
      bases.findSome? (fun b => lookupStr b.attr_alias_map k)) ∧
    (x ∈ (generate_from_bases bases cls_opts).exclude_vars ↔
      ∃ b ∈ bases, x ∈ b.exclude_vars) ∧
    (x ∈ (generate_from_bases bases cls_opts).case_insensitive_names ↔
      ∃ b ∈ bases, x ∈ b.case_insensitive_names) ∧
    ((generate_from_bases bases cls_opts).options.case_insensitive =
      ((cls_opts.map (fun o => o.case_insensitive)).getD none).or
        ((bases.filter (fun b => ! b.options.vacuum)).findSome?
          (fun b => b.options.case_insensitive))) ∧
    ((generate_from_bases bases cls_opts).options.mode =
      ((cls_opts.map (fun o => o.mode)).getD none).or
        ((bases.filter (fun b => ! b.options.vacuum)).findSome?
          (fun b => b.options.mode))) ∧
    ((generate_from_bases bases cls_opts).options.invalid_values =
      ((cls_opts.map (fun o => o.invalid_values)).getD none).or
        ((bases.filter (fun b => ! b.options.vacuum)).findSome?
          (fun b => b.options.invalid_values))) := by
  have hf : lookupStr (generate_from_bases bases cls_opts).fields k =
      bases.findSome? (fun b => lookupStr b.fields k) := by
    show lookupStr ((bases.reverse).foldl
      (fun a p => dictUpdate a p.fields) []) k = _
    rw [lookup_foldl_dictUpdate (fun b : ParserS => b.fields) k bases.reverse []]
    simp [lookupStr]
  have hfa : lookupStr (generate_from_bases bases cls_opts).field_alias_map k =
      bases.findSome? (fun b => lookupStr b.field_alias_map k) := by
    show lookupStr ((bases.reverse).foldl
      (fun a p => dictUpdate a p.field_alias_map) []) k = _
    rw [lookup_foldl_dictUpdate (fun b : ParserS => b.field_alias_map) k
      bases.reverse []]
    simp [lookupStr]
  have haa : lookupStr (generate_from_bases bases cls_opts).attr_alias_map k =
      bases.findSome? (fun b => lookupStr b.attr_alias_map k) := by
    show lookupStr ((bases.reverse).foldl
      (fun a p => dictUpdate a p.attr_alias_map) []) k = _
    rw [lookup_foldl_dictUpdate (fun b : ParserS => b.attr_alias_map) k
      bases.reverse []]
    simp [lookupStr]
  refine ⟨?_, ?_, hf, hfa, haa, ?_, ?_, ?_, ?_, ?_⟩
  · show lookupStr (dictUpdate (generate_from_bases bases cls_opts).fields own) k = _
    rw [lookupStr_dictUpdate, hf]
  · rw [hf, lastSome?_reverse_map]
  · show x ∈ (bases.reverse).foldl (fun a p => setUpdate a p.exclude_vars) [] ↔ _
    rw [mem_foldl_setUpdate (fun b : ParserS => b.exclude_vars) x bases.reverse []]
    simp
  · show x ∈ (bases.reverse).foldl
      (fun a p => setUpdate a p.case_insensitive_names) [] ↔ _
    rw [mem_foldl_setUpdate (fun b : ParserS => b.case_insensitive_names) x
      bases.reverse []]
    simp
  · exact generate_from_proj (fun o => o.case_insensitive) (fun a b => rfl) rfl
      bases cls_opts
  · exact generate_from_proj (fun o => o.mode) (fun a b => rfl) rfl bases cls_opts
  · exact generate_from_proj (fun o => o.invalid_values) (fun a b => rfl) rfl
      bases cls_opts

/-- C3: for the wrapped synchronous generator declared to yield int, accept
int sends and return str, run against the demo transformer: (1) a yielded "3"
is coerced and re-yielded as 3, generically in the continuation and wrapper
state; (2) StopIteration with value 9 delivers the coerced return "9"; (3) a
yielded "x" ends the run with a ParseError whose item carries the current
yield index; (4) a sent "7" is coerced to 7 before being forwarded to the
underlying continuation, generically in that continuation; (5) and (6)
end-to-end runs: yields "3" then "x" errors at yield index 1; yields "3", "4"
then returns 9 delivers [3, 4] and "9". -/
theorem C3_sync_generator_coercions :
    (∀ (fuel : Nat) (g1 : GenS) (i : Nat) (rest : List (Option Val))
      (outs : List Val),
      pG.sync_generator transDemo (fuel + 1)
        (.mk fun _ => .yieldVal (.str "3") g1) i (none :: rest) outs =
      pG.sync_generator transDemo fuel g1 (i + 1) rest (outs ++ [.int 3])) ∧
    (∀ (fuel i : Nat) (sends : List (Option Val)) (outs : List Val),
      pG.sync_generator transDemo (fuel + 1)
        (.mk fun _ => .stop (.int 9)) i sends outs =
      { outs := outs, outcome := .finished (.str "9") }) ∧
    (∀ (fuel : Nat) (g1 : GenS) (i : Nat) (sends : List (Option Val))
      (outs : List Val),
      pG.sync_generator transDemo (fuel + 1)
        (.mk fun _ => .yieldVal (.str "x") g1) i sends outs =
      { outs := outs, outcome := .errored
          { item := genYieldItem i, ty := .base "int", value := .str "x" } }) ∧
    (∀ (fuel i : Nat) (rest : List (Option Val)) (outs : List Val)
      (k : Option Val → GenOut GenS),
      pG.sync_generator transDemo (fuel + 1)
        (.mk fun _ => .yieldVal (.str "3") (.mk k)) i
        (some (.str "7") :: rest) outs =
      (match k (some (.int 7)) with
       | .stop ret => { outs := outs ++ [.int 3], outcome := .sendStopped ret }
       | .yieldVal _ g2 =>
         pG.sync_generator transDemo fuel g2 (i + 1) rest (outs ++ [.int 3])
       | .yieldGen _ g2 =>
         pG.sync_generator transDemo fuel g2 (i + 1) rest (outs ++ [.int 3]))) ∧
    (pG.sync_generator transDemo 10 gXY 0 [none, none] [] =
      { outs := [.int 3], outcome := .errored
          { item := "<generator.yield[1]>", ty := .base "int",
            value := .str "x" } }) ∧
    (pG.sync_generator transDemo 10 g34 0 [none, none] [] =
      { outs := [.int 3, .int 4], outcome := .finished (.str "9") }) := by
  refine ⟨?_, ?_, ?_, ?_, rfl, rfl⟩
  · intro fuel g1 i rest outs
    rfl
  · intro fuel i sends outs
    rfl
  · intro fuel g1 i sends outs
    rfl
  · intro fuel i rest outs k
    rfl

/-- C4: with the discriminated union of variants tagged 1 and 2:
declaration-time validation builds the tag-to-variant map; a mapping tagged 1
or 2 selects the matching variant as coercion target and the parse outcome is
exactly the coercion against that variant; a mapping tagged 3 falls through
to the declared union type and, under the demo transformer, escalates a
ParseError; and validation fails with a configuration error on a
non-combination type, an unresolved or unsupported combinator, a non-schema
member, a member lacking the tag field or a literal constant for it, and a
duplicated constant. -/
theorem C4_discriminator :
    (validate_discriminator (some "tag") tyU =
      .ok [(.int 1, ty1), (.int 2, ty2)]) ∧
    (∀ es, fC4.select_type (.map (("tag", .int 1) :: es)) = ty1) ∧
    (∀ es, fC4.select_type (.map (("tag", .int 2) :: es)) = ty2) ∧
    (∀ es, fC4.select_type (.map (("tag", .int 3) :: es)) = tyU) ∧
    (∀ (trans : Val → Ty → Option Val) (c : Ctx),
      (fC4.parse_value vTag1 { } trans c).1 = trans vTag1 ty1) ∧
    (fC4.parse_value vTag1 { } transDemo { } = (some vTag1, { })) ∧
    (fC4.parse_value vTag3 { } transDemo { } =
      (none, Ctx.handle_error { }
        (.parse { item := "item", ty := tyU, value := vTag3 }))) ∧
    (validate_discriminator (some "tag") (.base "int") =
      .error "common type does not support discriminator") ∧
    (validate_discriminator (some "tag") (.logical none [ty1, ty2]) =
      .error "common type does not support discriminator") ∧
    (validate_discriminator (some "tag") (.logical (some "&") [ty1, ty2]) =
      .error "combinator does not support discriminator") ∧
    (validate_discriminator (some "tag") (.logical (some "|") [ty1, .base "int"]) =
      .error "member type is not a schema class") ∧
    (validate_discriminator (some "tag")
        (.logical (some "|") [ty1, .schemaCls "V3" [("other", none)]]) =
      .error "discriminator field was not found in member type") ∧
    (validate_discriminator (some "tag")
        (.logical (some "|") [ty1, .schemaCls "V3" [("tag", none)]]) =
      .error "no common type const set for discriminator field") ∧
    (validate_discriminator (some "tag")
        (.logical (some "|") [ty1, .schemaCls "V3" [("tag", some (.int 1))]]) =
      .error "duplicate discriminator value") := by
  refine ⟨rfl, fun es => rfl, fun es => rfl, fun es => rfl, ?_,
    rfl, rfl, rfl, rfl, rfl, rfl, rfl, rfl, rfl⟩
  intro trans c
  have hsel : fC4.select_type vTag1 = ty1 := rfl
  simp only [SchemaField.parse_value, hsel]
  rcases h : trans vTag1 ty1 with _ | r <;> rfl

theorem checkedParam_false_iff (p : ParamM) :
    checkedParam p = false ↔
      (p.kind = .varPos ∨ p.kind = .varKw ∨ p.kind = .kwOnly) := by
  unfold checkedParam
  cases p.kind <;> simp

theorem validate_loop_error_iff :
    ∀ (ps : List ParamM) (opt : Option String) (ws : List String),
      (∀ p ∈ ps, checkedParam p = true → (p.field).isSome = true) →
      (isErrE (validate_fields_loop ps opt ws) = true ↔
        ViolationAt ps opt.isSome) := by
  intro ps
  induction ps with
  | nil =>
    intro opt ws _
    constructor
    · intro h
      exact absurd h (by simp [validate_fields_loop, isErrE])
    · rintro ⟨l2, y, l3, habs, -⟩
      simp at habs
  | cons p t ih =>
    intro opt ws hfb
    have hfbt : ∀ q ∈ t, checkedParam q = true → (q.field).isSome = true :=
      fun q hq => hfb q (List.mem_cons_of_mem p hq)
    by_cases hch : checkedParam p = true
    · -- the parameter is subject to the check
      obtain ⟨f, hpf⟩ := Option.isSome_iff_exists.mp (hfb p (by simp) hch)
      have hcond : ¬ (p.kind = .varPos ∨ p.kind = .varKw ∨ p.kind = .kwOnly) := by
        intro hc
        rw [(checkedParam_false_iff p).mpr hc] at hch
        exact absurd hch (by simp)
      have hreq : (match p.field with
          | some f => f.field.default.isNone
          | none => p.hasRawDefault) = ! fieldHasDefault p := by
        rw [hpf]
        simp [fieldHasDefault, hpf]
      simp only [validate_fields_loop]
      rw [if_neg hcond, hreq]
      by_cases hd : fieldHasDefault p = true
      · -- optional parameter: it arms the check for everything after it
        rw [hd]
        simp only [Bool.not_true]
        rw [if_neg Bool.false_ne_true]
        rw [ih (some p.name) ws hfbt]
        constructor
        · rintro ⟨l2, y, l3, heq, hcy, hfy, hky, -⟩
          refine ⟨p :: l2, y, l3, by simp [heq], hcy, hfy, hky, ?_⟩
          exact Or.inr ⟨[], p, l2, rfl, hch, hd⟩
        · rintro ⟨l2, y, l3, heq, hcy, hfy, hky, -⟩
          cases l2 with
          | nil =>
            simp only [List.nil_append, List.cons.injEq] at heq
            obtain ⟨rfl, rfl⟩ := heq
            rw [hd] at hfy
            exact absurd hfy (by simp)
          | cons a l2' =>
            simp only [List.cons_append, List.cons.injEq] at heq
            obtain ⟨rfl, rfl⟩ := heq
            exact ⟨l2', y, l3, rfl, hcy, hfy, hky, Or.inl rfl⟩
      · -- default-less parameter: check it against the armed state
        have hd' : fieldHasDefault p = false := by
          cases hx : fieldHasDefault p
          · rfl
          · exact absurd hx hd
        rw [hd']
        simp only [Bool.not_false]
        rw [if_pos trivial]
        cases opt with
        | none =>
          show isErrE (validate_fields_loop t none ws) = true ↔
            ViolationAt (p :: t) false
          rw [ih none ws hfbt]
          constructor
          · rintro ⟨l2, y, l3, heq, hcy, hfy, hky, hside⟩
            refine ⟨p :: l2, y, l3, by simp [heq], hcy, hfy, hky, ?_⟩
            rcases hside with h | ⟨l2a, x, l2b, hl2, hcx, hfx⟩
            · exact absurd h (by simp)
            · exact Or.inr ⟨p :: l2a, x, l2b, by simp [hl2], hcx, hfx⟩
          · rintro ⟨l2, y, l3, heq, hcy, hfy, hky, hside⟩
            cases l2 with
            | nil =>
              simp only [List.nil_append, List.cons.injEq] at heq
              obtain ⟨rfl, rfl⟩ := heq
              rcases hside with h | ⟨l2a, x, l2b, hl2, hcx, hfx⟩
              · exact absurd h (by simp)
              · exact absurd hl2 (by simp)
            | cons a l2' =>
              simp only [List.cons_append, List.cons.injEq] at heq
              obtain ⟨rfl, rfl⟩ := heq
              refine ⟨l2', y, l3, rfl, hcy, hfy, hky, ?_⟩
              rcases hside with h | ⟨l2a, x, l2b, hl2, hcx, hfx⟩
              · exact absurd h (by simp)
              · cases l2a with
                | nil =>
                  simp only [List.nil_append, List.cons.injEq] at hl2
                  obtain ⟨rfl, rfl⟩ := hl2
                  rw [hd'] at hfx
                  exact absurd hfx (by simp)
                | cons b l2a' =>
                  simp only [List.cons_append, List.cons.injEq] at hl2
                  obtain ⟨rfl, rfl⟩ := hl2
                  exact Or.inr ⟨l2a', x, l2b, rfl, hcx, hfx⟩
        | some oname =>
          show isErrE (if p.kind = PKind.posOnly then
              (Except.error ("non-default argument " ++ p.name ++
                " follows default argument " ++ oname) :
                Except String (List String))
            else validate_fields_loop t (some oname)
              (ws ++ ["non-default argument " ++ p.name ++
                " follows default argument " ++ oname])) = true ↔
            ViolationAt (p :: t) true
          by_cases hpk : p.kind = .posOnly
          · rw [if_pos hpk]
            constructor
            · intro _
              exact ⟨[], p, t, rfl, hch, hd', hpk, Or.inl rfl⟩
            · intro _
              rfl
          · rw [if_neg hpk]
            rw [ih (some oname) (ws ++ ["non-default argument " ++ p.name ++
              " follows default argument " ++ oname]) hfbt]
            constructor
            · rintro ⟨l2, y, l3, heq, hcy, hfy, hky, -⟩
              exact ⟨p :: l2, y, l3, by simp [heq], hcy, hfy, hky, Or.inl rfl⟩
            · rintro ⟨l2, y, l3, heq, hcy, hfy, hky, -⟩
              cases l2 with
              | nil =>
                simp only [List.nil_append, List.cons.injEq] at heq
                obtain ⟨rfl, rfl⟩ := heq
                exact absurd hky hpk
              | cons a l2' =>
                simp only [List.cons_append, List.cons.injEq] at heq
                obtain ⟨rfl, rfl⟩ := heq
                exact ⟨l2', y, l3, rfl, hcy, hfy, hky, Or.inl rfl⟩
    · -- variadic or keyword-only parameter: skipped by the loop
      have hcond : p.kind = .varPos ∨ p.kind = .varKw ∨ p.kind = .kwOnly :=
        (checkedParam_false_iff p).mp (by
          cases hx : checkedParam p
          · rfl
          · exact absurd hx hch)
      simp only [validate_fields_loop]
      rw [if_pos hcond]
      rw [ih opt ws hfbt]
      have hch' : checkedParam p = false := by
        cases hx : checkedParam p
        · rfl
        · exact absurd hx hch
      constructor
      · rintro ⟨l2, y, l3, heq, hcy, hfy, hky, hside⟩
        refine ⟨p :: l2, y, l3, by simp [heq], hcy, hfy, hky, ?_⟩
        rcases hside with h | ⟨l2a, x, l2b, hl2, hcx, hfx⟩
        · exact Or.inl h
        · exact Or.inr ⟨p :: l2a, x, l2b, by simp [hl2], hcx, hfx⟩
      · rintro ⟨l2, y, l3, heq, hcy, hfy, hky, hside⟩
        cases l2 with
        | nil =>
          simp only [List.nil_append, List.cons.injEq] at heq
          obtain ⟨rfl, rfl⟩ := heq
          rw [hch'] at hcy
          exact absurd hcy (by simp)
        | cons a l2' =>
          simp only [List.cons_append, List.cons.injEq] at heq
          obtain ⟨rfl, rfl⟩ := heq
          refine ⟨l2', y, l3, rfl, hcy, hfy, hky, ?_⟩
          rcases hside with h | ⟨l2a, x, l2b, hl2, hcx, hfx⟩
          · exact Or.inl h
          · cases l2a with
            | nil =>
              simp only [List.nil_append, List.cons.injEq] at hl2
              obtain ⟨rfl, rfl⟩ := hl2
              rw [hch'] at hcx
              exact absurd hcx (by simp)
            | cons b l2a' =>
              simp only [List.cons_append, List.cons.injEq] at hl2
              obtain ⟨rfl, rfl⟩ := hl2
              exact Or.inr ⟨l2a', x, l2b, rfl, hcx, hfx⟩

theorem violationAt_iff_split (ps : List ParamM) :
    ViolationAt ps false ↔
      ∃ l1 x l2 y l3, ps = l1 ++ x :: (l2 ++ y :: l3) ∧
        checkedParam x = true ∧ fieldHasDefault x = true ∧
        checkedParam y = true ∧ fieldHasDefault y = false ∧
        y.kind = .posOnly := by
  constructor
  · rintro ⟨l2, y, l3, heq, hcy, hfy, hky, hside⟩
    rcases hside with h | ⟨l2a, x, l2b, hl2, hcx, hfx⟩
    · exact absurd h (by simp)
    · subst hl2
      exact ⟨l2a, x, l2b, y, l3, by simp [heq], hcx, hfx, hcy, hfy, hky⟩
  · rintro ⟨l1, x, l2, y, l3, heq, hcx, hfx, hcy, hfy, hky⟩
    exact ⟨l1 ++ x :: l2, y, l3, by simp [heq], hcy, hfy, hky,
      Or.inr ⟨l1, x, l2, rfl, hcx, hfx⟩⟩

/-- C2 (counterexample): for the signature `(a, b=1, *, c)` the claim asserts
the default-order violation on the keyword-only default-less `c` emits a
warning, but `validate_fields` skips keyword-only parameters before the check,
so it returns with no warning and no error. -/
theorem C2_counterexample :
    validate_fields psC2kw = .ok [] ∧ specC2_expects_warning psC2kw = true :=
  ⟨rfl, rfl⟩

/-- C2 (amended): for field-backed parameters, once a non-keyword-only,
non-variadic parameter carries a field default, a later such parameter
without one is a violation; the decoration fails fatally exactly when such a
violation falls on a strictly-positional parameter; on a positional-or-keyword
parameter it only emits a warning, and keyword-only parameters are exempt
from the check entirely. -/
theorem C2_default_order :
    (∀ ps : List ParamM,
      (∀ p ∈ ps, checkedParam p = true → (p.field).isSome = true) →
      (isErrE (validate_fields ps) = true ↔
        ∃ l1 x l2 y l3, ps = l1 ++ x :: (l2 ++ y :: l3) ∧
          checkedParam x = true ∧ fieldHasDefault x = true ∧
          checkedParam y = true ∧ fieldHasDefault y = false ∧
          y.kind = .posOnly)) ∧
    validate_fields psC2fatal =
      .error "non-default argument c follows default argument b" ∧
    validate_fields psC2warn =
      .ok ["non-default argument c follows default argument b"] ∧
    validate_fields psC2kw = .ok [] := by
  refine ⟨?_, rfl, rfl, rfl⟩
  intro ps hfb
  rw [validate_fields, validate_loop_error_iff ps none [] hfb]
  exact violationAt_iff_split ps

/-- C2 witness: the shape `(a, b=1, c=Field(), /)` in which every parameter is
field-backed and the default-less `c` is strictly positional is fatal. -/
theorem C2_default_order_witness :
    isErrE (validate_fields psC2fatal) = true := by
  have h := (C2_default_order.1 psC2fatal (by
    intro p hp _
    simp only [psC2fatal, List.mem_cons, List.not_mem_nil, or_false] at hp
    rcases hp with rfl | rfl | rfl <;> rfl)).mpr
  exact h ⟨[paF], pbF, [], pcF, [], rfl, rfl, rfl, rfl, rfl, rfl⟩

theorem ite_warn_errors (b : Bool) (c : Ctx) (m : String) :
    (if b = true then c.collect_waring m else c).errors = c.errors := by
  cases b <;> rfl

theorem parse_value_errors_ext (f : SchemaField) (v : Val) (o : ROpts)
    (trans : Val → Ty → Option Val) (c : Ctx) :
    ∃ ext, (f.parse_value v o trans c).2.errors = c.errors ++ ext := by
  rcases ht : trans v (f.select_type v) with _ | r <;>
    simp only [SchemaField.parse_value, ht]
  · rcases hpol : f.get_on_error o with _ | _ | _
    · by_cases hreq : f.is_required o = true
      · rw [if_pos hreq]
        exact ⟨[.parse { item := f.name, ty := f.type, value := v }],
          by simp [handle_error_errors, ite_warn_errors]⟩
      · rw [if_neg hreq]
        exact ⟨[], by simp [collect_waring_errors, ite_warn_errors]⟩
    · exact ⟨[], by simp [collect_waring_errors, ite_warn_errors]⟩
    · exact ⟨[.parse { item := f.name, ty := f.type, value := v }],
        by simp [handle_error_errors, ite_warn_errors]⟩
  · exact ⟨[], by simp [ite_warn_errors]⟩

theorem parse_data_fold_errors_ext (p : FunctionParser) (o : ROpts)
    (trans : Val → Ty → Option Val) (excluded : List String) :
    ∀ (kwargs : List (String × Val)) (acc : List (String × Val)) (c : Ctx),
      ∃ ext, ((kwargs.foldl (parse_data_step p o trans excluded)
        (acc, c)).2).errors = c.errors ++ ext := by
  intro kwargs
  induction kwargs with
  | nil =>
    intro acc c
    exact ⟨[], by simp⟩
  | cons kv t ih =>
    intro acc c
    rw [List.foldl_cons]
    rcases hf : lookupStr p.kw_fields kv.1 with _ | field
    · have hstep : parse_data_step p o trans excluded (acc, c) kv = (acc, c) := by
        simp only [parse_data_step, hf]
      rw [hstep]
      exact ih acc c
    · rcases hpv : field.parse_value kv.2 o trans c with ⟨r?, c'⟩
      obtain ⟨ext1, hext1⟩ := parse_value_errors_ext field kv.2 o trans c
      rw [hpv] at hext1
      dsimp only at hext1
      by_cases hex : field.attname ∈ excluded
      · have hstep : parse_data_step p o trans excluded (acc, c) kv = (acc, c) := by
          simp only [parse_data_step, hf]
          rw [if_pos hex]
        rw [hstep]
        exact ih acc c
      · rcases r? with _ | r
        · have hstep : parse_data_step p o trans excluded (acc, c) kv =
              (acc, c') := by
            simp only [parse_data_step, hf]
            rw [if_neg hex]
            rw [hpv]
          rw [hstep]
          obtain ⟨ext2, hext2⟩ := ih acc c'
          refine ⟨ext1 ++ ext2, ?_⟩
          rw [hext2, hext1, List.append_assoc]
        · have hstep : parse_data_step p o trans excluded (acc, c) kv =
              (acc ++ [(field.attname, r)], c') := by
            simp only [parse_data_step, hf]
            rw [if_neg hex]
            rw [hpv]
          rw [hstep]
          obtain ⟨ext2, hext2⟩ := ih (acc ++ [(field.attname, r)]) c'
          refine ⟨ext1 ++ ext2, ?_⟩
          rw [hext2, hext1, List.append_assoc]

theorem parse_data_errors_mem (p : FunctionParser) (o : ROpts)
    (trans : Val → Ty → Option Val) (kwargs : List (String × Val))
    (excluded : List String) (c : Ctx) (e : ErrT) (h : e ∈ c.errors) :
    e ∈ (p.parse_data o trans kwargs excluded c).2.errors := by
  obtain ⟨ext, hext⟩ :=
    parse_data_fold_errors_ext p o trans excluded kwargs [] c
  unfold FunctionParser.parse_data
  rw [hext]
  exact List.mem_append_left ext h

theorem parse_pos_defaults_errors_ext (o : ROpts) :
    ∀ (l : List (Nat × SchemaField)) (st : List Val × List String × Ctx),
      ∃ ext, (parse_pos_defaults o l st).2.2.errors = st.2.2.errors ++ ext := by
  intro l
  induction l with
  | nil =>
    intro st
    exact ⟨[], by simp [parse_pos_defaults]⟩
  | cons hd rest ih =>
    intro st
    obtain ⟨j, g⟩ := hd
    obtain ⟨pa, pk, c⟩ := st
    unfold parse_pos_defaults
    by_cases h1 : g.attname ∈ pk
    · rw [if_pos h1]
      exact ih (pa, pk, c)
    · rw [if_neg h1]
      by_cases h2 : g.is_required o = true
      · rw [if_pos h2]
        obtain ⟨ext, hext⟩ := ih (pa, pk, c.handle_error (.absence g.attname))
        exact ⟨.absence g.attname :: ext, by
          rw [hext, handle_error_errors, List.append_assoc]
          rfl⟩
      · rw [if_neg h2]
        rcases hgd : g.get_default o with _ | d
        · exact ih (pa, pk, c)
        · exact ih (pa ++ [d], pk ++ [g.attname], c)

theorem parse_pos_defaults_hit (o : ROpts) (i : Nat) (field : SchemaField) :
    ∀ (l : List (Nat × SchemaField)) (st : List Val × List String × Ctx),
      (i, field) ∈ l → (l.map (fun q => q.2.attname)).Nodup →
      field.is_required o = true → field.attname ∉ st.2.1 →
      ErrT.absence field.attname ∈ (parse_pos_defaults o l st).2.2.errors := by
  intro l
  induction l with
  | nil =>
    intro st hmem
    exact absurd hmem (List.not_mem_nil _)
  | cons hd rest ih =>
    intro st hmem hnd hreq habs
    obtain ⟨j, g⟩ := hd
    obtain ⟨pa, pk, c⟩ := st
    rw [List.map_cons, List.nodup_cons] at hnd
    obtain ⟨hgnotin, hndrest⟩ := hnd
    rcases List.mem_cons.mp hmem with heq | hmem'
    · -- this entry is the required absent field
      injection heq with hij hfg
      subst hij
      subst hfg
      unfold parse_pos_defaults
      simp only at habs
      rw [if_neg habs, if_pos hreq]
      obtain ⟨ext, hext⟩ := parse_pos_defaults_errors_ext o rest
        (pa, pk, c.handle_error (.absence field.attname))
      rw [hext, handle_error_errors]
      exact List.mem_append_left ext
        (List.mem_append_right c.errors (List.mem_singleton.mpr rfl))
    · -- the field sits further down the list
      have hne : g.attname ≠ field.attname := by
        intro hc
        exact hgnotin (hc ▸ List.mem_map_of_mem (fun q => q.2.attname) hmem')
      simp only at habs
      unfold parse_pos_defaults
      by_cases h1 : g.attname ∈ pk
      · rw [if_pos h1]
        exact ih (pa, pk, c) hmem' hndrest hreq habs
      · rw [if_neg h1]
        by_cases h2 : g.is_required o = true
        · rw [if_pos h2]
          exact ih (pa, pk, c.handle_error (.absence g.attname))
            hmem' hndrest hreq habs
        · rw [if_neg h2]
          rcases hgd : g.get_default o with _ | d
          · exact ih (pa, pk, c) hmem' hndrest hreq habs
          · refine ih (pa ++ [d], pk ++ [g.attname], c) hmem' hndrest hreq ?_
            simp only [List.mem_append, List.mem_singleton]
            rintro (h | h)
            · exact habs h
            · exact hne h.symm

/-- C5: a required positional-only field not supplied positionally always
escalates an AbsenceError: whatever the runtime options (in particular an
exclude policy on the call) and whatever the field declares (in particular an
exclude policy of its own), `parse_params` fails with an error list containing
the absence error for that field. -/
theorem C5_required_absent_fatal (p : FunctionParser) (o : ROpts)
    (trans : Val → Ty → Option Val) (args : List Val)
    (kwargs : List (String × Val)) (c : Ctx) (i : Nat) (field : SchemaField)
    (hmem : (i, field) ∈ p.positional_only_fields)
    (hnodup : (p.positional_only_fields.map (fun q => q.2.attname)).Nodup)
    (hreq : field.is_required o = true)
    (habs : field.attname ∉ (p.parse_args_from o trans 0 args ([], [], c)).2.1) :
    ∃ es, p.parse_params o trans args kwargs c = .error es ∧
      ErrT.absence field.attname ∈ es := by
  have hhit := parse_pos_defaults_hit o i field p.positional_only_fields
    (p.parse_args_from o trans 0 args ([], [], c)) hmem hnodup hreq habs
  have hmem3 := parse_data_errors_mem p o trans kwargs
    (parse_pos_defaults o p.positional_only_fields
      (p.parse_args_from o trans 0 args ([], [], c))).2.1
    (parse_pos_defaults o p.positional_only_fields
      (p.parse_args_from o trans 0 args ([], [], c))).2.2
    (ErrT.absence field.attname) hhit
  have hne : ((p.parse_data o trans kwargs
      (parse_pos_defaults o p.positional_only_fields
        (p.parse_args_from o trans 0 args ([], [], c))).2.1
      (parse_pos_defaults o p.positional_only_fields
        (p.parse_args_from o trans 0 args ([], [], c))).2.2).2).errors.isEmpty
      ≠ true := by
    intro hc
    rw [List.isEmpty_iff] at hc
    rw [hc] at hmem3
    exact absurd hmem3 (List.not_mem_nil _)
  refine ⟨_, ?_, hmem3⟩
  show (if _ then _ else _) = _
  rw [if_neg hne]

/-- C5 witness: one required positional-only field, not supplied, with exclude
policies on both the field and the call: parameter parsing still fails with
the absence error. -/
theorem C5_required_absent_fatal_witness :
    ∃ es, pPosOnly.parse_params oExclude transDemo [] [] { } = .error es ∧
      ErrT.absence "x" ∈ es := by
  exact C5_required_absent_fatal pPosOnly oExclude transDemo [] [] { } 0
    sfPosReq (by simp [pPosOnly]) (by simp [pPosOnly]) rfl
    (by exact List.not_mem_nil _)

/-- C6: a declared return type is applied exactly once to the call result
after the call; a successful coercion yields exactly the coerced value, a
failed coercion is escalated with force-raise (fatal), and the outcome does
not depend on the runtime options, so no field or call error policy can
downgrade it. -/
theorem C6_parse_result_fatal (p : FunctionParser) (rt : Ty) (result : Val)
    (o o' : ROpts) (trans : Val → Ty → Option Val) (c : Ctx)
    (h : p.return_type = some rt) :
    (∀ r, trans result rt = some r →
      p.parse_result result o trans c = (.ok r, c)) ∧
    (trans result rt = none →
      (p.parse_result result o trans c).1 =
        .error { item := "<return>", ty := rt, value := result } ∧
      (p.parse_result result o trans c).2.errors =
        c.errors ++ [.parse { item := "<return>", ty := rt, value := result }]) ∧
    (p.parse_result result o trans c = p.parse_result result o' trans c) := by
  refine ⟨?_, ?_, rfl⟩
  · intro r hr
    simp only [FunctionParser.parse_result, h, hr]
  · intro hr
    simp [FunctionParser.parse_result, h, hr, handle_error_errors]

/-- C6 witness: a signature returning str coerces the int result 9 to "9";
with an always-failing transformer the return error is escalated. -/
theorem C6_parse_result_fatal_witness :
    ({ return_type := some (.base "str") } :
        FunctionParser).parse_result (.int 9) { } transDemo { } =
      (.ok (.str "9"), { }) ∧
    (({ return_type := some (.base "str") } :
        FunctionParser).parse_result (.str "") oExclude
        (fun _ _ => none) { }).1 =
      .error { item := "<return>", ty := .base "str", value := .str "" } := by
  constructor
  · exact (C6_parse_result_fatal { return_type := some (.base "str") }
      (.base "str") (.int 9) { } { } transDemo { } rfl).1 (.str "9") rfl
  · exact ((C6_parse_result_fatal { return_type := some (.base "str") }
      (.base "str") (.str "") oExclude oExclude
      (fun _ _ => none) { } rfl).2.1 rfl).1

end Utype
